import Mathlib

/-
Verification of the geospatial accessibility graph pipeline
(food-desert-analysis, src/data_processing.py) against its
natural-language specification.

The Python functions are shallowly embedded as executable Lean
definitions.  Pandas/GeoPandas tables become explicit records of column
lists and row data; float NaN (pandas missing marker) becomes `none` of
an `Option` type; the igraph shortest-path matrix (whose unreachable
entries are float infinity) is modelled with `none` standing for the
infinite distance; Python object mutation is modelled by explicit store
passing (`Nat`-indexed references into a store of graphs).
-/

namespace FoodDesert

/-! ## Reconciliation of node and edge tables (`reconcile_nodes_edges`) -/

/-- Membership in `complete = set(nodes.index) & set(edges.u) & set(edges.v)`. -/
def inComplete (nodes : List Nat) (edges : List (Nat × Nat)) (x : Nat) : Bool :=
  decide (x ∈ nodes) && decide (x ∈ edges.map Prod.fst) && decide (x ∈ edges.map Prod.snd)

/-- Embedding of `reconcile_nodes_edges`: keep only nodes in `complete`
and only edges whose two endpoints are both in `complete`. -/
def reconcile_nodes_edges (nodes : List Nat) (edges : List (Nat × Nat)) :
    List Nat × List (Nat × Nat) :=
  (nodes.filter (fun n => inComplete nodes edges n),
   edges.filter (fun e => inComplete nodes edges e.1 && inComplete nodes edges e.2))

/-! ## Region membership tagging (`data_from_placename`, area-of-analysis flags) -/

/-- A node row just before region tagging: its identifier and the result of
the `geometry.within(area_of_analysis)` containment test. -/
structure RegionNode where
  id : Nat
  within_aoa : Bool
deriving DecidableEq, Repr

/-- A node row after `nodes.assign(aoa=...)` and `nodes.assign(buffer=...)`. -/
structure TaggedNode where
  id : Nat
  aoa : Bool
  buffer : Bool
deriving DecidableEq, Repr

/-- An edge row after `edges["aoa"] = ...` and `edges["buffer"] = ...`. -/
structure TaggedEdge where
  u : Nat
  v : Nat
  aoa : Bool
  buffer : Bool
deriving DecidableEq, Repr

/-- Embedding of the node tagging lines of `data_from_placename`:
`aoa = geometry.within(area_of_analysis)`, `buffer = ~geometry.within(area_of_analysis)`. -/
def tag_region_nodes (nodes : List RegionNode) : List TaggedNode :=
  nodes.map (fun n => ⟨n.id, n.within_aoa, !n.within_aoa⟩)

/-- Embedding of `aoa_nodes = nodes[nodes["aoa"]].index`. -/
def aoa_node_ids (tagged : List TaggedNode) : List Nat :=
  (tagged.filter (fun t => t.aoa)).map (fun t => t.id)

/-- Embedding of the edge tagging lines of `data_from_placename`:
`edges["aoa"] = edges.u.isin(aoa_nodes) & edges.v.isin(aoa_nodes)` and
`edges["buffer"] = ~(edges.u.isin(aoa_nodes) & edges.v.isin(aoa_nodes))`. -/
def tag_region_edges (edges : List (Nat × Nat)) (aoaIds : List Nat) : List TaggedEdge :=
  edges.map (fun e =>
    ⟨e.1, e.2, decide (e.1 ∈ aoaIds) && decide (e.2 ∈ aoaIds),
     !(decide (e.1 ∈ aoaIds) && decide (e.2 ∈ aoaIds))⟩)

/-! ## Edge value projection (`add_average_to_edge`) -/

/-- A directed multigraph edge key `(u, v, k)` as iterated by
`graph.edges(keys=True)`. -/
structure EdgeK where
  u : Nat
  v : Nat
  k : Nat
deriving DecidableEq, Repr

/-- A networkx multigraph as seen by the attribute-adding steps: per-node
and per-edge attribute dictionaries (a `none` value models a missing key
or a float NaN, which is what `dict.get(attribute, np.nan)` produces). -/
structure AttrGraph where
  nodes : List Nat
  edges : List EdgeK
  nodeAttr : String → Nat → Option ℚ
  edgeAttr : String → EdgeK → Option ℚ

/-- The value written to an edge: `(source_value + target_value) / 2` with
NaN propagation — if either endpoint value is NaN/missing the sum, and
hence the average, is NaN. -/
def avgOpt (a b : Option ℚ) : Option ℚ :=
  match a, b with
  | some x, some y => some ((x + y) / 2)
  | _, _ => none

/-- Embedding of the loop body sequence of `add_average_to_edge`: for each
edge key, overwrite the edge's attribute with the average of its endpoint
nodes' values (read from the unmutated node dictionaries). -/
def add_average_to_edge (g : AttrGraph) (attrName : String) : AttrGraph :=
  { g with
    edgeAttr := fun a =>
      if a = attrName then
        g.edges.foldl
          (fun f e => fun x =>
            if x = e then avgOpt (g.nodeAttr attrName e.u) (g.nodeAttr attrName e.v)
            else f x)
          (g.edgeAttr attrName)
      else g.edgeAttr a }

/-! ## Python object semantics for the enrichment steps (`data_from_placename`)

The graph enrichment steps receive a reference to a graph object living in
the interpreter's store.  `add_average_to_edge` executes
`graph.edges[u, v, k][attribute] = average_value` — an in-place update of
the referenced object — and then returns that same reference.  We model
the store as a function from references (`Nat`) to graph values. -/

/-- Stateful embedding of `add_average_to_edge`: the store after the call
holds the updated graph at the argument reference, and the function
returns the reference it received. -/
def add_average_to_edge_stateful (store : Nat → AttrGraph) (r : Nat) (attrName : String) :
    (Nat → AttrGraph) × Nat :=
  (fun x => if x = r then add_average_to_edge (store x) attrName else store x, r)

/-! ## Coordinate reference systems -/

/-- `GEODESIC_EPSG = 4326` from the source module. -/
def GEODESIC_EPSG : Nat := 4326

/-- `EQUAL_AREA_EPSG = 5070` from the source module. -/
def EQUAL_AREA_EPSG : Nat := 5070

/-! ## Demographic join with fallback (`merge_svi`)

Only the coordinate-system tags and the column lists of the two frames
matter to the claim about the fallback branch, so the tables are embedded
at that level of detail; the GeoPandas `sjoin` call itself (which may
raise on CRS/geometry incompatibility) is abstracted as an explicit
`engine` argument returning `Except`. -/

/-- A GeoDataFrame reduced to its CRS tag and its column names. -/
structure GTable where
  crs : Nat
  cols : List String
deriving DecidableEq, Repr

/-- Embedding of `merge_svi`.  Mirrors the source exactly: select the SVI
fields (plus geometry), reproject both frames to the equal-area CRS, try
the `within` join; on an exception, warn, reproject both frames to
geodetic coordinates, run the same join again — but, as in the source,
the fallback join's result is not assigned to anything — and return
`nodes`.  The `Bool` component records whether the warning was emitted. -/
def merge_svi (engine : GTable → GTable → Except Unit GTable)
    (nodes svi : GTable) (svi_fields : List String := ["density"]) : Bool × GTable :=
  let fields := if "geometry" ∈ svi_fields then svi_fields else svi_fields ++ ["geometry"]
  let nodes1 : GTable := { nodes with crs := EQUAL_AREA_EPSG }
  let sviA : GTable := { svi with crs := EQUAL_AREA_EPSG }
  let svi1 : GTable := { sviA with cols := fields }
  match engine nodes1 svi1 with
  | Except.ok joined => (false, { joined with crs := GEODESIC_EPSG })
  | Except.error _ =>
      let nodes2 : GTable := { nodes1 with crs := GEODESIC_EPSG }
      let svi2 : GTable := { svi1 with crs := GEODESIC_EPSG }
      let _ := engine nodes2 svi2
      (true, nodes2)

/-! ## Demographic dataset reader (`read_svi`)

Tract geometries are modelled as axis-aligned rational rectangles, for
which the bounding-box read and the `intersects` filter are decidable.
Raw field values are `Option ℚ`: `some q` is a stored number (the source
dataset stores the sentinel `-999` as an ordinary number) and `none` is
the missing-value marker (float NaN). -/

/-- An axis-aligned rectangle standing for a polygon geometry. -/
structure Rect where
  xmin : ℚ
  xmax : ℚ
  ymin : ℚ
  ymax : ℚ
deriving DecidableEq, Repr

/-- Decidable geometric intersection of two rectangles. -/
def rectIntersects (a b : Rect) : Bool :=
  decide (a.xmin ≤ b.xmax) && decide (b.xmin ≤ a.xmax) &&
  decide (a.ymin ≤ b.ymax) && decide (b.ymin ≤ a.ymax)

/-- A raw record of the SVI geodatabase: geometry, the two fields used to
derive density, and the remaining vulnerability fields as an association
list from field name to raw value. -/
structure SviRecord where
  geometry : Rect
  E_TOTPOP : Option ℚ
  AREA_SQMI : Option ℚ
  fields : List (String × Option ℚ)
deriving DecidableEq, Repr

/-- A row of the collection returned by `read_svi`: the raw record plus
the derived `density` column. -/
structure SviRow where
  geometry : Rect
  E_TOTPOP : Option ℚ
  AREA_SQMI : Option ℚ
  fields : List (String × Option ℚ)
  density : Option ℚ
deriving DecidableEq, Repr

/-- Division lifted to missing-aware values (`E_TOTPOP / AREA_SQMI`). -/
def optDiv (a b : Option ℚ) : Option ℚ :=
  match a, b with
  | some x, some y => some (x / y)
  | _, _ => none

/-- Embedding of `read_svi`: read the records whose bounding boxes overlap
the polygon's bounds, keep those that truly intersect the polygon, and
assign `density = E_TOTPOP / AREA_SQMI`.  No other transformation is
applied to the field values. -/
def read_svi (dataset : List SviRecord) (polygon : Rect) : List SviRow :=
  -- gpd.read_file(..., bbox=polygon.bounds): records whose bounding box
  -- overlaps the query bounds (for rectangles, the same test as intersects)
  let fromFile := dataset.filter (fun r => rectIntersects r.geometry polygon)
  -- gdf[gdf.geometry.intersects(polygon)]
  let gdf := fromFile.filter (fun r => rectIntersects r.geometry polygon)
  gdf.map (fun r =>
    { geometry := r.geometry, E_TOTPOP := r.E_TOTPOP, AREA_SQMI := r.AREA_SQMI,
      fields := r.fields, density := optDiv r.E_TOTPOP r.AREA_SQMI })

/-! ## Edge cleaning (`clean_edges`)

An edge GeoDataFrame is embedded as a list of column names together with
rows mapping column names to cells.  A cell is either NA (float NaN in
pandas), a number, a single string, or a list of strings (the OSM highway
attribute is a string or a list of strings). -/

/-- A pandas cell. -/
inductive Cell where
  | na : Cell
  | num : ℚ → Cell
  | str : String → Cell
  | strs : List String → Cell
deriving DecidableEq, Repr

/-- An edge table: named columns and rows, each row a lookup from column
name to cell. -/
structure ETable where
  cols : List String
  rows : List (String → Cell)

/-- Number of non-NA values of a column. -/
def nonNullCount (t : ETable) (c : String) : Nat :=
  t.rows.countP (fun r => r c ≠ Cell.na)

/-- Number of NA values of a column. -/
def missingCount (t : ETable) (c : String) : Nat :=
  t.rows.countP (fun r => r c = Cell.na)

/-- The pandas threshold `int(len(edges) * 0.95)` (truncation of the exact
rational product, `n ≥ 0`). -/
def colThresh (n : Nat) : Nat := (95 * n) / 100

/-- The columns surviving `edges.dropna(axis="columns", thresh=int(len(edges)*0.95))`:
a column is kept iff it has at least `thresh` non-NA values. -/
def keptColumns (t : ETable) : List String :=
  t.cols.filter (fun c => colThresh t.rows.length ≤ nonNullCount t c)

/-- The rows surviving `edges.dropna(axis="rows", how="any")`: rows with
no NA among the kept columns. -/
def keptRows (t : ETable) : List (String → Cell) :=
  t.rows.filter (fun r => (keptColumns t).all (fun c => r c ≠ Cell.na))

/-- The values contributed by a highway cell to `edges.highway.explode()`:
a scalar string stays a single value, a list explodes to its elements, NA
(and an empty list, which explodes to NA) contributes nothing to
`pd.get_dummies`. -/
def hwValues : Cell → List String
  | Cell.str s => [s]
  | Cell.strs l => l
  | _ => []

/-- Indicator-column names generated by the one-hot expansion: the highway
categories occurring in the rows, suffixed with `_hwy`. -/
def hwyDummyNames (rows : List (String → Cell)) : List String :=
  ((rows.map (fun r => hwValues (r "highway"))).flatten.dedup).map (fun c => c ++ "_hwy")

/-- Embedding of `clean_edges`: drop sparse columns by the `thresh` rule,
drop remaining rows containing any NA among the kept columns, one-hot
expand the highway classification into per-category occurrence counts
(`explode` + `get_dummies` + `groupby(level=0).sum()`), join those
indicator columns, and drop the raw `highway` column.  If the `highway`
column is absent at the `edges.highway` access the source raises an
`AttributeError`; that outcome is `none`. -/
def clean_edges (t : ETable) : Option ETable :=
  let kept := keptColumns t
  let rows2 := keptRows t
  if "highway" ∈ kept then
    let dummies := hwyDummyNames rows2
    let rows3 := rows2.map (fun r => fun c =>
      if c ∈ dummies then
        Cell.num (((hwValues (r "highway")).count (c.dropRight 4) : ℚ))
      else r c)
    let colsJoined := kept ++ dummies
    let finalCols :=
      if "highway" ∈ colsJoined then colsJoined.filter (fun c => c ≠ "highway")
      else colsJoined
    some ⟨finalCols, rows3⟩
  else none

/-! ## Grocery attachment (`merge_grocery`)

Geometries are points with rational coordinates.  Reprojection between
coordinate systems is an arbitrary map, passed explicitly, so that the
nearest-neighbour join is stated in the shared equal-area projection
exactly as the source performs it. -/

/-- A point geometry. -/
abbrev Pt : Type := ℚ × ℚ

/-- Squared Euclidean distance; its minimisers are the minimisers of the
Euclidean distance used by `sjoin_nearest`. -/
def sqDist (p q : Pt) : ℚ := (p.1 - q.1) ^ 2 + (p.2 - q.2) ^ 2

/-- A GeoDataFrame of identified point geometries. -/
structure GeoPoints where
  crs : Nat
  rows : List (Nat × Pt)
deriving DecidableEq, Repr

/-- `to_crs`: retag the frame and transform every geometry. -/
def to_crs (reproj : Nat → Nat → Pt → Pt) (t : GeoPoints) (e : Nat) : GeoPoints :=
  ⟨e, t.rows.map (fun ip => (ip.1, reproj t.crs e ip.2))⟩

/-- The right-row identifiers nearest to a query point: `sjoin_nearest`
returns every equidistant nearest right geometry. -/
def nearestIds (right : List (Nat × Pt)) (p : Pt) : List Nat :=
  ((right.filter (fun r => right.all (fun s => sqDist r.2 p ≤ sqDist s.2 p))).map Prod.fst)

/-- The `index_right` column of `groceries.sjoin_nearest(nodes)`: for each
grocery row, the identifiers of the nearest node rows. -/
def sjoin_nearest_index_right (left right : List (Nat × Pt)) : List Nat :=
  left.flatMap (fun l => nearestIds right l.2)

/-- A node row of the output of `merge_grocery`: identifier, geometry and
the boolean `grocery` column. -/
structure FlaggedPoints where
  crs : Nat
  rows : List (Nat × Pt × Bool)
deriving DecidableEq, Repr

/-- Embedding of `merge_grocery`: reproject nodes and groceries to the
equal-area CRS, flag a node iff its index occurs in the `index_right` of
the nearest join of groceries against nodes, and reproject the node frame
back to geodetic coordinates. -/
def merge_grocery (reproj : Nat → Nat → Pt → Pt)
    (nodes groceries : GeoPoints) : FlaggedPoints :=
  let nodes1 := to_crs reproj nodes EQUAL_AREA_EPSG
  let groceries1 := to_crs reproj groceries EQUAL_AREA_EPSG
  let idxRight := sjoin_nearest_index_right groceries1.rows nodes1.rows
  let flagged := nodes1.rows.map (fun ip => (ip.1, ip.2, decide (ip.1 ∈ idxRight)))
  ⟨GEODESIC_EPSG,
   flagged.map (fun r => (r.1, reproj EQUAL_AREA_EPSG GEODESIC_EPSG r.2.1, r.2.2))⟩

/-! ## Nearest-food travel time (`add_grocery_travel_time`,
`add_grocery_travel_time_igraph`)

The street network is a directed graph with a `travel_time` weight per
edge and a boolean `grocery` attribute per node.  Shortest-path distances
(the library routines `ig.Graph.shortest_paths` and the networkx Dijkstra
functions) are embedded as `n` rounds of parallel edge relaxation over
`Option ℚ`, where `none` is the infinite/unreachable distance; for the
non-negative weights of a street network this computes the shortest-path
distance. -/

/-- A weighted directed street edge. -/
structure SEdge where
  u : Nat
  v : Nat
  travel_time : ℚ
deriving DecidableEq, Repr

/-- The street graph as the travel-time step sees it. -/
structure FoodGraph where
  nodes : List Nat
  grocery : Nat → Bool
  edges : List SEdge

/-- Minimum of two extended distances (`none` is infinity). -/
def optMin (a b : Option ℚ) : Option ℚ :=
  match a, b with
  | none, b => b
  | some x, none => some x
  | some x, some y => some (min x y)

/-- Add an edge weight to an extended distance. -/
def optAddW (a : Option ℚ) (w : ℚ) : Option ℚ :=
  match a with
  | none => none
  | some x => some (x + w)

/-- One parallel relaxation round: each node's tentative distance is
lowered through every incoming edge. -/
def relaxStep (es : List SEdge) (d : Nat → Option ℚ) : Nat → Option ℚ :=
  fun v => es.foldl (fun acc e => if e.v = v then optMin acc (optAddW (d e.u) e.travel_time) else acc) (d v)

/-- Tentative distances seeded at a set of sources. -/
def initDist (sources : List Nat) : Nat → Option ℚ :=
  fun v => if v ∈ sources then some 0 else none

/-- Shortest-path distance maps from a list of source nodes along the
given edge list, after as many relaxation rounds as the graph has
nodes. -/
def spDistFrom (nodeCount : Nat) (es : List SEdge) (sources : List Nat) : Nat → Option ℚ :=
  (relaxStep es)^[nodeCount] (initDist sources)

/-- Edge reversal: `mode="in"` in the igraph call measures paths that
reach the source set following edge directions, i.e. forward distances in
the reversed graph. -/
def reverseEdges (es : List SEdge) : List SEdge :=
  es.map (fun e => ⟨e.v, e.u, e.travel_time⟩)

/-- `grocery_indices` as node identifiers: the nodes carrying a true
`grocery` attribute. -/
def grocery_nodes (g : FoodGraph) : List Nat :=
  g.nodes.filter (fun n => g.grocery n)

/-- One row of the igraph distance matrix `shortest_paths[i][j]` with
`mode="in"`: the travel-time distance from node `j` to the grocery store
`s`. -/
def distToStore (g : FoodGraph) (s : Nat) (j : Nat) : Option ℚ :=
  spDistFrom g.nodes.length (reverseEdges g.edges) [s] j

/-- `shortest_paths_to_grocery[j]`: the minimum over all grocery stores of
the distance from `j` to that store (the Python `min` over the matrix
column, where unreachable entries are float infinity). -/
def shortest_paths_to_grocery (g : FoodGraph) (j : Nat) : Option ℚ :=
  ((grocery_nodes g).map (fun s => distToStore g s j)).foldl optMin none

/-- The distance from the grocery node `gn` to its nearest other grocery
store: the `min` of `other_store_distances` in the source. -/
def nearest_other_store (g : FoodGraph) (gn : Nat) : Option ℚ :=
  (((grocery_nodes g).filter (fun s => s ≠ gn)).map (fun s => distToStore g s gn)).foldl optMin none

/-- The value stored for a grocery node: replaced by the distance to the
nearest other store only when `other_store_distances` is non-empty. -/
def grocery_corrected (g : FoodGraph) (gn : Nat) : Option ℚ :=
  if ((grocery_nodes g).filter (fun s => s ≠ gn)).isEmpty then shortest_paths_to_grocery g gn
  else nearest_other_store g gn

/-- Embedding of `add_grocery_travel_time_igraph`.  The node attribute
table maps a node to `none` when the `nearest_grocery_time` attribute is
absent and to `some d` when it is set to the extended distance `d`.  With
no grocery stores the function warns (`Bool` result `true`) and returns
the graph unchanged; otherwise every graph node receives the minimum
distance to a store, with grocery nodes corrected to their nearest other
store. -/
def add_grocery_travel_time_igraph (g : FoodGraph)
    (attrs : Nat → Option (Option ℚ)) : (Nat → Option (Option ℚ)) × Bool :=
  if (grocery_nodes g).isEmpty then (attrs, true)
  else
    (fun n =>
      if n ∈ g.nodes then
        some (if g.grocery n then grocery_corrected g n else shortest_paths_to_grocery g n)
      else attrs n, false)

/-- Forward multi-source distances for the networkx branch:
`nx.multi_source_dijkstra_path_length(graph, sources=grocery_node_ids,
weight="travel_time")`, a dict that omits unreachable nodes (`none`) and
raises `ValueError` when the source list is empty. -/
def multi_source_dijkstra_path_length (g : FoodGraph) (sources : List Nat) :
    Except String (Nat → Option ℚ) :=
  if sources.isEmpty then Except.error "sources must not be empty"
  else Except.ok (spDistFrom g.nodes.length g.edges sources)

/-- The networkx branch's correction for a grocery node: paths from the
node itself, restricted to other grocery targets, replacing the zero only
when some other grocery is reachable. -/
def nx_grocery_corrected (g : FoodGraph) (gn : Nat) : ℚ :=
  let fromHere := spDistFrom g.nodes.length g.edges [gn]
  let nonSelf := ((grocery_nodes g).filter (fun t => t ≠ gn)).filterMap (fun t => fromHere t)
  match nonSelf.foldl (fun acc x => optMin acc (some x)) none with
  | some m => m
  | none => 0

/-- Embedding of the networkx branch of `add_grocery_travel_time`
(`igraph=False`): multi-source forward Dijkstra from the grocery nodes,
then the zero-distance correction loop; nodes absent from the Dijkstra
dict keep their previous attribute state. -/
def add_grocery_travel_time_nx (g : FoodGraph)
    (attrs : Nat → Option (Option ℚ)) : Except String ((Nat → Option (Option ℚ)) × Bool) :=
  match multi_source_dijkstra_path_length g (grocery_nodes g) with
  | Except.error e => Except.error e
  | Except.ok dist =>
      Except.ok
        (fun n =>
          match dist n with
          | none => attrs n
          | some d =>
              some (some (if g.grocery n ∧ n ∈ g.nodes ∧ d = 0 then nx_grocery_corrected g n
                          else d))
         , false)

/-- Embedding of the dispatcher `add_grocery_travel_time(graph, igraph=True)`. -/
def add_grocery_travel_time (g : FoodGraph) (attrs : Nat → Option (Option ℚ))
    (igraph : Bool := true) : Except String ((Nat → Option (Option ℚ)) × Bool) :=
  if igraph then Except.ok (add_grocery_travel_time_igraph g attrs)
  else add_grocery_travel_time_nx g attrs

/-- An extended distance that is nonnegative whenever finite. -/
def NonnegD (d : Option ℚ) : Prop := ∀ q, d = some q → 0 ≤ q

/-- An extended distance that is strictly positive whenever finite. -/
def PosD (d : Option ℚ) : Prop := ∀ q, d = some q → 0 < q

/-! ## Projection helpers and concrete instances used in the theorems -/

/-- Column names of the result of `clean_edges` (empty on the error case). -/
def cleanedCols (t : ETable) : List String :=
  ((clean_edges t).map ETable.cols).getD []

/-- Rows of the result of `clean_edges` (empty on the error case). -/
def cleanedRows (t : ETable) : List (String → Cell) :=
  ((clean_edges t).map ETable.rows).getD []

/-- A street graph with two grocery nodes joined by a zero-travel-time
edge. -/
def zeroEdgeGraph : FoodGraph :=
  { nodes := [1, 2], grocery := fun n => n == 1 || n == 2,
    edges := [⟨1, 2, 0⟩] }

/-- A street graph with two grocery nodes, positive travel times in both
directions, and one non-grocery node. -/
def twoStoreGraph : FoodGraph :=
  { nodes := [1, 2, 3], grocery := fun n => n == 1 || n == 2,
    edges := [⟨1, 2, 3⟩, ⟨2, 1, 4⟩, ⟨2, 3, 1⟩] }

/-- A street graph with no grocery nodes at all. -/
def noStoreGraph : FoodGraph :=
  { nodes := [1, 2], grocery := fun _ => false, edges := [⟨1, 2, 3⟩] }

/-- A join engine that fails in the equal-area CRS and succeeds in
geodetic coordinates, where it attaches the SVI columns to the node
frame. -/
def demoEngine (n s : GTable) : Except Unit GTable :=
  if n.crs = EQUAL_AREA_EPSG then Except.error ()
  else Except.ok { n with cols := n.cols ++ s.cols.filter (fun c => c ≠ "geometry") }

/-- A node frame without demographic columns, used with `demoEngine`. -/
def plainNodes : GTable := { crs := GEODESIC_EPSG, cols := ["x", "y", "geometry"] }

/-- An SVI frame carrying a density column, used with `demoEngine`. -/
def plainSvi : GTable := { crs := GEODESIC_EPSG, cols := ["density", "E_TOTPOP", "geometry"] }

/-- A dataset consisting of one tract record whose fields carry the
data-unavailable sentinel `-999`. -/
def sentinelRecord : SviRecord :=
  { geometry := ⟨0, 1, 0, 1⟩, E_TOTPOP := some (-999), AREA_SQMI := some 2,
    fields := [("EP_POV150", some (-999))] }

/-- The query polygon containing `sentinelRecord`. -/
def sentinelPolygon : Rect := ⟨0, 1, 0, 1⟩

/-- One edge row of the ten-row counterexample table. -/
def mkEdgeRow (u v : ℚ) (len : Cell) : String → Cell :=
  fun c =>
    if c = "u" then Cell.num u
    else if c = "v" then Cell.num v
    else if c = "len" then len
    else if c = "highway" then Cell.str "residential"
    else Cell.na

/-- A ten-row edge table whose `len` column is missing in exactly one row:
its missing count `1` exceeds 5% of the rows (`0.5`), yet its non-NA
count `9` meets the pandas threshold `int(10 * 0.95) = 9`, so the column
is retained. -/
def tenRowTable : ETable :=
  { cols := ["u", "v", "len", "highway"],
    rows :=
      [mkEdgeRow 0 1 (Cell.num 5), mkEdgeRow 1 2 (Cell.num 5), mkEdgeRow 2 3 (Cell.num 5),
       mkEdgeRow 3 4 (Cell.num 5), mkEdgeRow 4 5 (Cell.num 5), mkEdgeRow 5 6 (Cell.num 5),
       mkEdgeRow 6 7 (Cell.num 5), mkEdgeRow 7 8 (Cell.num 5), mkEdgeRow 8 9 (Cell.num 5),
       mkEdgeRow 9 0 Cell.na] }

/-- The identity reprojection, used for concrete instances. -/
def idReproj : Nat → Nat → Pt → Pt := fun _ _ p => p

/-- Two nodes on a line, used for the grocery attachment instance. -/
def gridNodes : GeoPoints := ⟨GEODESIC_EPSG, [(1, (0, 0)), (2, (10, 0))]⟩

/-- A single grocery POI nearest to node `1`. -/
def oneGrocery : GeoPoints := ⟨GEODESIC_EPSG, [(7, (1, 0))]⟩

/-- A small attribute graph for the edge value projection step. -/
def demoAttrGraph : AttrGraph :=
  { nodes := [1, 2],
    edges := [⟨1, 2, 0⟩],
    nodeAttr := fun a n =>
      if a = "nearest_grocery_time" then (if n = 1 then some 1 else if n = 2 then some 3 else none)
      else none,
    edgeAttr := fun _ _ => none }

/-- A one-object store holding `demoAttrGraph` at every reference. -/
def demoStore : Nat → AttrGraph := fun _ => demoAttrGraph

/-! ## Theorems -/

/-- Pointwise value of an assigning fold at a key not in the list. -/
theorem foldl_pointwise_of_not_mem {α β : Type} [DecidableEq α] (val : α → β)
    (l : List α) (f : α → β) (x : α) (hx : x ∉ l) :
    l.foldl (fun g e => fun y => if y = e then val e else g y) f x = f x := by
  induction l generalizing f with
  | nil => rfl
  | cons a as ih =>
      have hxa : x ≠ a := fun h => hx (h ▸ List.mem_cons_self a as)
      have hxas : x ∉ as := fun h => hx (List.mem_cons_of_mem a h)
      simp only [List.foldl_cons]
      rw [ih _ hxas]
      simp [hxa]

/-- Pointwise value of an assigning fold at a key in the list: the key
receives its assigned value (assignments are independent of the
accumulator, so the last write equals every write). -/
theorem foldl_pointwise_of_mem {α β : Type} [DecidableEq α] (val : α → β)
    (l : List α) (f : α → β) (x : α) (hx : x ∈ l) :
    l.foldl (fun g e => fun y => if y = e then val e else g y) f x = val x := by
  induction l generalizing f with
  | nil => cases hx
  | cons a as ih =>
      simp only [List.foldl_cons]
      by_cases hmem : x ∈ as
      · exact ih _ hmem
      · have hxa : x = a := by
          rcases List.mem_cons.mp hx with h | h
          · exact h
          · exact absurd h hmem
        subst hxa
        rw [foldl_pointwise_of_not_mem val as _ x hmem]
        simp

/-- The minimum of two finite-positive extended distances is
finite-positive. -/
theorem posD_optMin {a b : Option ℚ} (ha : PosD a) (hb : PosD b) : PosD (optMin a b) := by
  intro q hq
  cases a with
  | none => exact hb q (by simpa [optMin] using hq)
  | some x =>
      cases b with
      | none => exact ha q (by simpa [optMin] using hq)
      | some y =>
          simp only [optMin, Option.some.injEq] at hq
          subst hq
          exact lt_min (ha x rfl) (hb y rfl)

/-- Finite-positive implies finite-nonnegative. -/
theorem posD_nonnegD {d : Option ℚ} (h : PosD d) : NonnegD d :=
  fun q hq => le_of_lt (h q hq)

/-- The minimum of two finite-nonnegative extended distances is
finite-nonnegative. -/
theorem nonnegD_optMin {a b : Option ℚ} (ha : NonnegD a) (hb : NonnegD b) :
    NonnegD (optMin a b) := by
  intro q hq
  cases a with
  | none => exact hb q (by simpa [optMin] using hq)
  | some x =>
      cases b with
      | none => exact ha q (by simpa [optMin] using hq)
      | some y =>
          simp only [optMin, Option.some.injEq] at hq
          subst hq
          exact le_min (ha x rfl) (hb y rfl)

/-- Adding a positive edge weight to a finite-nonnegative distance gives
a finite-positive distance. -/
theorem posD_optAddW {a : Option ℚ} {w : ℚ} (ha : NonnegD a) (hw : 0 < w) :
    PosD (optAddW a w) := by
  intro q hq
  cases a with
  | none => simp [optAddW] at hq
  | some x =>
      simp only [optAddW, Option.some.injEq] at hq
      subst hq
      have := ha x rfl
      linarith

/-- The relaxation fold keeps tentative distances finite-nonnegative. -/
theorem foldl_relax_nonneg (d : Nat → Option ℚ) (v : Nat) :
    ∀ (es : List SEdge), (∀ e ∈ es, 0 < e.travel_time) → (∀ u, NonnegD (d u)) →
      ∀ acc, NonnegD acc →
        NonnegD (es.foldl (fun acc e =>
          if e.v = v then optMin acc (optAddW (d e.u) e.travel_time) else acc) acc) := by
  intro es
  induction es with
  | nil => intro _ _ acc ha; simpa using ha
  | cons e es ih =>
      intro hw hd acc ha
      simp only [List.foldl_cons]
      refine ih (fun x hx => hw x (List.mem_cons_of_mem _ hx)) hd _ ?_
      by_cases hev : e.v = v
      · simp only [if_pos hev]
        exact nonnegD_optMin ha
          (posD_nonnegD (posD_optAddW (hd e.u) (hw e (List.mem_cons_self _ _))))
      · simpa [hev] using ha

/-- The relaxation fold keeps a finite-positive tentative distance
finite-positive when all edge weights are positive and the previous
round's distances are finite-nonnegative. -/
theorem foldl_relax_pos (d : Nat → Option ℚ) (v : Nat) :
    ∀ (es : List SEdge), (∀ e ∈ es, 0 < e.travel_time) → (∀ u, NonnegD (d u)) →
      ∀ acc, PosD acc →
        PosD (es.foldl (fun acc e =>
          if e.v = v then optMin acc (optAddW (d e.u) e.travel_time) else acc) acc) := by
  intro es
  induction es with
  | nil => intro _ _ acc ha; simpa using ha
  | cons e es ih =>
      intro hw hd acc ha
      simp only [List.foldl_cons]
      refine ih (fun x hx => hw x (List.mem_cons_of_mem _ hx)) hd _ ?_
      by_cases hev : e.v = v
      · simp only [if_pos hev]
        exact posD_optMin ha (posD_optAddW (hd e.u) (hw e (List.mem_cons_self _ _)))
      · simpa [hev] using ha

/-- Single-source relaxation invariant: all tentative distances are
finite-nonnegative, and every node other than the source has a
finite-positive (or infinite) tentative distance. -/
theorem spDistFrom_single_invariant (n : Nat) (es : List SEdge)
    (hw : ∀ e ∈ es, 0 < e.travel_time) (s : Nat) :
    (∀ v, NonnegD (spDistFrom n es [s] v)) ∧
    (∀ v, v ≠ s → PosD (spDistFrom n es [s] v)) := by
  induction n with
  | zero =>
      constructor
      · intro v q hq
        simp only [spDistFrom, Function.iterate_zero_apply, initDist] at hq
        by_cases hv : v ∈ [s]
        · rw [if_pos hv] at hq
          injection hq with h
          simp [← h]
        · rw [if_neg hv] at hq
          cases hq
      · intro v hv q hq
        simp only [spDistFrom, Function.iterate_zero_apply, initDist] at hq
        rw [if_neg (by simpa using hv)] at hq
        cases hq
  | succ n ih =>
      have hstep : spDistFrom (n + 1) es [s] = relaxStep es (spDistFrom n es [s]) := by
        simp only [spDistFrom, Function.iterate_succ_apply']
      rw [hstep]
      constructor
      · intro v
        exact foldl_relax_nonneg _ v es hw ih.1 _ (ih.1 v)
      · intro v hv
        exact foldl_relax_pos _ v es hw ih.1 _ (ih.2 v hv)

/-- The distance from a node to a distinct store is never a finite zero
when all travel times are positive. -/
theorem distToStore_pos (g : FoodGraph) (hw : ∀ e ∈ g.edges, 0 < e.travel_time)
    (s j : Nat) (hj : j ≠ s) : PosD (distToStore g s j) := by
  have hw2 : ∀ e ∈ reverseEdges g.edges, 0 < e.travel_time := by
    intro e he
    simp only [reverseEdges, List.mem_map] at he
    obtain ⟨e0, he0, rfl⟩ := he
    exact hw e0 he0
  exact (spDistFrom_single_invariant g.nodes.length (reverseEdges g.edges) hw2 s).2 j hj

/-- A fold of `optMin` over finite-positive distances starting from a
finite-positive accumulator stays finite-positive. -/
theorem foldl_optMin_pos :
    ∀ (l : List (Option ℚ)), (∀ x ∈ l, PosD x) → ∀ acc, PosD acc →
      PosD (l.foldl optMin acc) := by
  intro l
  induction l with
  | nil => intro _ acc ha; simpa using ha
  | cons x xs ih =>
      intro hl acc ha
      simp only [List.foldl_cons]
      exact ih (fun y hy => hl y (List.mem_cons_of_mem _ hy)) _
        (posD_optMin ha (hl x (List.mem_cons_self _ _)))

/-- The distance to the nearest other grocery store is never a finite
zero when all travel times are positive. -/
theorem nearest_other_store_pos (g : FoodGraph)
    (hw : ∀ e ∈ g.edges, 0 < e.travel_time) (gn : Nat) :
    PosD (nearest_other_store g gn) := by
  unfold nearest_other_store
  apply foldl_optMin_pos
  · intro x hx
    rw [List.mem_map] at hx
    obtain ⟨s, hs, rfl⟩ := hx
    have hsne : s ≠ gn := by
      rw [List.mem_filter] at hs
      simpa using hs.2
    exact distToStore_pos g hw s gn (Ne.symm hsne)
  · intro q hq
    cases hq

/-- With at least two grocery nodes on a duplicate-free node list, every
grocery node has some other grocery store. -/
theorem exists_other_store (g : FoodGraph) (hnd : g.nodes.Nodup)
    (h2 : 2 ≤ (grocery_nodes g).length) (gn : Nat) :
    ((grocery_nodes g).filter (fun s => s ≠ gn)).isEmpty = false := by
  have hnodup : (grocery_nodes g).Nodup := hnd.filter _
  suffices h : ((grocery_nodes g).filter (fun s => s ≠ gn)) ≠ [] by
    cases hfe : ((grocery_nodes g).filter (fun s => s ≠ gn)).isEmpty with
    | false => rfl
    | true => exact absurd (List.isEmpty_iff.mp hfe) h
  intro hfil
  have hall : ∀ x ∈ grocery_nodes g, x = gn := by
    intro x hx
    have hx2 := List.filter_eq_nil_iff.mp hfil x hx
    simpa using hx2
  rcases hl : grocery_nodes g with _ | ⟨a, _ | ⟨b, rest⟩⟩
  · rw [hl] at h2
    simp at h2
  · rw [hl] at h2
    simp at h2
  · have ha : a = gn := hall a (by rw [hl]; exact List.mem_cons_self _ _)
    have hb : b = gn := hall b (by rw [hl]; exact List.mem_cons_of_mem _ (List.mem_cons_self _ _))
    rw [hl, List.nodup_cons] at hnodup
    exact hnodup.1 (by rw [ha, ← hb]; exact List.mem_cons_self _ _)

/-- C3: after reconciliation every retained edge's endpoints are retained
node identifiers (no dangling references), and every retained node
identifier occurs as the `u` endpoint of some original edge and as the
`v` endpoint of some original edge. -/
theorem C3_reconcile_no_dangling (nodes : List Nat) (edges : List (Nat × Nat)) :
    (∀ e ∈ (reconcile_nodes_edges nodes edges).2,
        e.1 ∈ (reconcile_nodes_edges nodes edges).1 ∧
        e.2 ∈ (reconcile_nodes_edges nodes edges).1) ∧
    (∀ n ∈ (reconcile_nodes_edges nodes edges).1,
        (∃ e ∈ edges, e.1 = n) ∧ (∃ e ∈ edges, e.2 = n)) := by
  constructor
  · intro e he
    simp only [reconcile_nodes_edges, List.mem_filter, inComplete, Bool.and_eq_true,
      decide_eq_true_eq] at he ⊢
    tauto
  · intro n hn
    simp only [reconcile_nodes_edges, List.mem_filter, inComplete, Bool.and_eq_true,
      decide_eq_true_eq, List.mem_map] at hn
    obtain ⟨-, ⟨-, hu⟩, hv⟩ := hn
    obtain ⟨a, ha, ha1⟩ := hu
    obtain ⟨b, hb, hb1⟩ := hv
    exact ⟨⟨a, ha, ha1⟩, ⟨b, hb, hb1⟩⟩

/-- C1 counterexample: in a graph whose two grocery nodes are joined by a
zero-travel-time edge, the travel-time step leaves node 1's
`nearest_grocery_time` at a finite zero, contradicting the claim's
"never zero". -/
theorem C1_counterexample :
    2 ≤ (grocery_nodes zeroEdgeGraph).length ∧
    zeroEdgeGraph.grocery 1 = true ∧
    (add_grocery_travel_time zeroEdgeGraph (fun _ => none)) =
      Except.ok (add_grocery_travel_time_igraph zeroEdgeGraph (fun _ => none)) ∧
    (add_grocery_travel_time_igraph zeroEdgeGraph (fun _ => none)).1 1 = some (some 0) := by
  refine ⟨by decide, rfl, rfl, ?_⟩
  norm_num [add_grocery_travel_time_igraph, grocery_corrected, nearest_other_store,
    shortest_paths_to_grocery, distToStore, spDistFrom, relaxStep, reverseEdges,
    zeroEdgeGraph, grocery_nodes, initDist, optMin, optAddW,
    Function.iterate_succ_apply, Function.iterate_zero_apply]

/-- C1 amended: with at least two grocery nodes on a duplicate-free node
list, the travel-time step assigns every grocery node the minimum
shortest-path travel time to the other grocery nodes (possibly the
infinite marker when none is reachable), and this value is never a
finite zero provided every edge travel time is positive. -/
theorem C1_grocery_time_corrected (g : FoodGraph) (attrs : Nat → Option (Option ℚ))
    (hw : ∀ e ∈ g.edges, 0 < e.travel_time) (hnd : g.nodes.Nodup)
    (h2 : 2 ≤ (grocery_nodes g).length) (gn : Nat) (hg : gn ∈ grocery_nodes g) :
    add_grocery_travel_time g attrs =
      Except.ok (add_grocery_travel_time_igraph g attrs) ∧
    (add_grocery_travel_time_igraph g attrs).1 gn = some (nearest_other_store g gn) ∧
    (add_grocery_travel_time_igraph g attrs).1 gn ≠ some (some 0) := by
  have hmem_nodes : gn ∈ g.nodes := (List.mem_filter.mp hg).1
  have hgro : g.grocery gn = true := by simpa using (List.mem_filter.mp hg).2
  have hempty : (grocery_nodes g).isEmpty = false := by
    cases hfe : (grocery_nodes g).isEmpty with
    | false => rfl
    | true =>
        rw [List.isEmpty_iff.mp hfe] at h2
        simp at h2
  have hfil := exists_other_store g hnd h2 gn
  have heq : (add_grocery_travel_time_igraph g attrs).1 gn =
      some (nearest_other_store g gn) := by
    simp only [add_grocery_travel_time_igraph, hempty, Bool.false_eq_true, if_false,
      if_pos hmem_nodes, hgro, if_true, grocery_corrected, hfil]
  have hpos := nearest_other_store_pos g hw gn
  refine ⟨rfl, heq, ?_⟩
  rw [heq]
  intro hcontra
  have h0 : nearest_other_store g gn = some 0 := Option.some.inj hcontra
  exact absurd (hpos 0 h0) (lt_irrefl 0)

/-- Witness for the amended C1 theorem: in `twoStoreGraph` the grocery
node 1 receives the travel time to the other store, and it is nonzero. -/
theorem C1_grocery_time_corrected_witness :
    add_grocery_travel_time twoStoreGraph (fun _ => none) =
      Except.ok (add_grocery_travel_time_igraph twoStoreGraph (fun _ => none)) ∧
    (add_grocery_travel_time_igraph twoStoreGraph (fun _ => none)).1 1 =
      some (nearest_other_store twoStoreGraph 1) ∧
    (add_grocery_travel_time_igraph twoStoreGraph (fun _ => none)).1 1 ≠ some (some 0) :=
  C1_grocery_time_corrected twoStoreGraph (fun _ => none)
    (by decide) (by decide) (by decide) 1 (by decide)

/-- Witness for C3 at a concrete pair of tables: edge `(1, 2)` is
retained with both endpoints retained, and retained node `1` appears as a
`u` and as a `v` endpoint among the original edges. -/
theorem C3_reconcile_no_dangling_witness :
    ((1, 2).1 ∈ (reconcile_nodes_edges [1, 2, 3] [(1, 2), (2, 1), (1, 3)]).1 ∧
     (1, 2).2 ∈ (reconcile_nodes_edges [1, 2, 3] [(1, 2), (2, 1), (1, 3)]).1) ∧
    ((∃ e ∈ [(1, 2), (2, 1), (1, 3)], Prod.fst e = 1) ∧
     (∃ e ∈ [(1, 2), (2, 1), (1, 3)], Prod.snd e = 1)) :=
  ⟨(C3_reconcile_no_dangling [1, 2, 3] [(1, 2), (2, 1), (1, 3)]).1 (1, 2) (by decide),
   (C3_reconcile_no_dangling [1, 2, 3] [(1, 2), (2, 1), (1, 3)]).2 1 (by decide)⟩

/-- C2: with zero grocery-flagged nodes the travel-time step returns
normally (`Except.ok`), emits the warning, and leaves the
`nearest_grocery_time` attribute missing for every node. -/
theorem C2_no_grocery_short_circuit (g : FoodGraph)
    (h : ∀ n ∈ g.nodes, g.grocery n = false) :
    add_grocery_travel_time g (fun _ => none) = Except.ok ((fun _ => none), true) := by
  have hg : grocery_nodes g = [] := by
    simp only [grocery_nodes, List.filter_eq_nil_iff]
    intro n hn
    simp [h n hn]
  simp [add_grocery_travel_time, add_grocery_travel_time_igraph, hg]

/-- Witness for C2 at a concrete two-node graph without groceries. -/
theorem C2_no_grocery_short_circuit_witness :
    add_grocery_travel_time noStoreGraph (fun _ => none) = Except.ok ((fun _ => none), true) :=
  C2_no_grocery_short_circuit noStoreGraph (by decide)

/-- C5 (code bug): when the equal-area join raises, `merge_svi` warns but
returns the node frame with its original columns — the geodetic fallback
join is computed and discarded, so no demographic field is attached. -/
theorem C5_fallback_join_discarded (engine : GTable → GTable → Except Unit GTable)
    (nodes svi : GTable) (svi_fields : List String)
    (herr : engine { nodes with crs := EQUAL_AREA_EPSG }
        { crs := EQUAL_AREA_EPSG,
          cols := if "geometry" ∈ svi_fields then svi_fields else svi_fields ++ ["geometry"] } =
        Except.error ()) :
    merge_svi engine nodes svi svi_fields =
      (true, { crs := GEODESIC_EPSG, cols := nodes.cols }) := by
  simp [merge_svi, herr]

/-- Witness for C5: a concrete engine failing in the equal-area CRS whose
geodetic run would attach `density`; the returned frame still lacks it. -/
theorem C5_fallback_join_discarded_witness :
    merge_svi demoEngine plainNodes plainSvi ["density"] =
      (true, { crs := GEODESIC_EPSG, cols := ["x", "y", "geometry"] }) ∧
    (∀ joined, demoEngine { plainNodes with crs := GEODESIC_EPSG }
        { crs := GEODESIC_EPSG, cols := ["density", "geometry"] } = Except.ok joined →
        "density" ∈ joined.cols) ∧
    "density" ∉ (merge_svi demoEngine plainNodes plainSvi ["density"]).2.cols := by
  refine ⟨C5_fallback_join_discarded demoEngine plainNodes plainSvi ["density"] rfl, ?_, ?_⟩
  · intro joined hj
    simp only [demoEngine, GEODESIC_EPSG, EQUAL_AREA_EPSG] at hj
    norm_num at hj
    subst hj
    decide
  · decide

/-- C4: after grocery attachment the node frame is back in geodetic
coordinates and a node identifier's `grocery` flag is true iff some node
row with that identifier is nearest (in the shared equal-area projection,
ties included, as `sjoin_nearest` returns every equidistant nearest
neighbour) to at least one grocery POI. -/
theorem C4_merge_grocery_flag (reproj : Nat → Nat → Pt → Pt) (nodes groceries : GeoPoints)
    (_hne : groceries.rows ≠ []) :
    (merge_grocery reproj nodes groceries).crs = GEODESIC_EPSG ∧
    ∀ i p b, (i, p, b) ∈ (merge_grocery reproj nodes groceries).rows →
      (b = true ↔ ∃ gr ∈ groceries.rows, ∃ nr ∈ nodes.rows, nr.1 = i ∧
          ∀ mr ∈ nodes.rows,
            sqDist (reproj nodes.crs EQUAL_AREA_EPSG nr.2)
                (reproj groceries.crs EQUAL_AREA_EPSG gr.2) ≤
              sqDist (reproj nodes.crs EQUAL_AREA_EPSG mr.2)
                (reproj groceries.crs EQUAL_AREA_EPSG gr.2)) := by
  refine ⟨rfl, ?_⟩
  intro i p b hmem
  simp only [merge_grocery, to_crs, List.mem_map, Prod.mk.injEq] at hmem
  obtain ⟨r, ⟨nr0, hnr0, rfl⟩, hi, -, hb⟩ := hmem
  subst hb
  subst hi
  simp only [decide_eq_true_eq]
  constructor
  · intro hidx
    simp only [sjoin_nearest_index_right, List.mem_flatMap, to_crs, List.mem_map] at hidx
    obtain ⟨l, ⟨gr, hgr, rfl⟩, hnear⟩ := hidx
    simp only [nearestIds, List.mem_map, List.mem_filter, List.all_eq_true,
      decide_eq_true_eq] at hnear
    obtain ⟨s, ⟨hs, hall⟩, hfst⟩ := hnear
    obtain ⟨nr, hnr, rfl⟩ := hs
    refine ⟨gr, hgr, nr, hnr, hfst, ?_⟩
    intro mr hmr
    exact hall (mr.1, reproj nodes.crs EQUAL_AREA_EPSG mr.2) ⟨mr, hmr, rfl⟩
  · intro hex
    obtain ⟨gr, hgr, nr, hnr, hfst, hall⟩ := hex
    simp only [sjoin_nearest_index_right, List.mem_flatMap, to_crs, List.mem_map]
    refine ⟨(gr.1, reproj groceries.crs EQUAL_AREA_EPSG gr.2), ⟨gr, hgr, rfl⟩, ?_⟩
    simp only [nearestIds, List.mem_map, List.mem_filter, List.all_eq_true,
      decide_eq_true_eq]
    refine ⟨(nr.1, reproj nodes.crs EQUAL_AREA_EPSG nr.2),
      ⟨⟨nr, hnr, rfl⟩, ?_⟩, hfst⟩
    intro s hs
    obtain ⟨mr, hmr, rfl⟩ := hs
    exact hall mr hmr

/-- Witness for C4: with an identity reprojection, two nodes and one POI
at distance 1 from node `1`, the flagged row `(1, (0,0), true)` satisfies
the nearest-neighbour characterisation. -/
theorem C4_merge_grocery_flag_witness :
    (merge_grocery idReproj gridNodes oneGrocery).crs = GEODESIC_EPSG ∧
    (true = true ↔ ∃ gr ∈ oneGrocery.rows, ∃ nr ∈ gridNodes.rows, nr.1 = 1 ∧
        ∀ mr ∈ gridNodes.rows,
          sqDist (idReproj gridNodes.crs EQUAL_AREA_EPSG nr.2)
              (idReproj oneGrocery.crs EQUAL_AREA_EPSG gr.2) ≤
            sqDist (idReproj gridNodes.crs EQUAL_AREA_EPSG mr.2)
              (idReproj oneGrocery.crs EQUAL_AREA_EPSG gr.2)) :=
  ⟨(C4_merge_grocery_flag idReproj gridNodes oneGrocery (by decide)).1,
   (C4_merge_grocery_flag idReproj gridNodes oneGrocery (by decide)).2 1 (0, 0) true
     (by norm_num [merge_grocery, to_crs, gridNodes, oneGrocery, idReproj,
       sjoin_nearest_index_right, nearestIds, sqDist, List.mem_flatMap])⟩

/-- C6 counterexample: a record carrying the `-999` sentinel reads back
with the sentinel value itself — not the missing-value marker — both in
the named field and in the population count. -/
theorem C6_counterexample :
    (read_svi [sentinelRecord] sentinelPolygon).map SviRow.E_TOTPOP = [some (-999)] ∧
    (read_svi [sentinelRecord] sentinelPolygon).map SviRow.fields =
      [[("EP_POV150", some (-999))]] ∧
    (some (-999 : ℚ) ≠ (none : Option ℚ)) := by
  refine ⟨by decide, by decide, by decide⟩

/-- C6 amended: `read_svi` passes every retained record's field values
through unchanged (no sentinel normalization), adding only the derived
density column. -/
theorem C6_read_svi_passthrough (dataset : List SviRecord) (polygon : Rect)
    (r : SviRecord) (hmem : r ∈ dataset)
    (hint : rectIntersects r.geometry polygon = true) :
    ∃ row ∈ read_svi dataset polygon,
      row.fields = r.fields ∧ row.E_TOTPOP = r.E_TOTPOP ∧ row.AREA_SQMI = r.AREA_SQMI ∧
      row.density = optDiv r.E_TOTPOP r.AREA_SQMI := by
  refine ⟨{ geometry := r.geometry, E_TOTPOP := r.E_TOTPOP, AREA_SQMI := r.AREA_SQMI,
            fields := r.fields, density := optDiv r.E_TOTPOP r.AREA_SQMI },
          ?_, rfl, rfl, rfl, rfl⟩
  simp only [read_svi, List.mem_map, List.mem_filter]
  exact ⟨r, ⟨⟨hmem, hint⟩, hint⟩, rfl⟩

/-- Witness for the amended C6 theorem at the sentinel record. -/
theorem C6_read_svi_passthrough_witness :
    rectIntersects sentinelRecord.geometry sentinelPolygon = true ∧
    ∃ row ∈ read_svi [sentinelRecord] sentinelPolygon,
      row.fields = sentinelRecord.fields ∧ row.E_TOTPOP = sentinelRecord.E_TOTPOP ∧
      row.AREA_SQMI = sentinelRecord.AREA_SQMI ∧
      row.density = optDiv sentinelRecord.E_TOTPOP sentinelRecord.AREA_SQMI :=
  ⟨by decide,
   C6_read_svi_passthrough [sentinelRecord] sentinelPolygon sentinelRecord
     (by decide) (by decide)⟩

/-- C7 counterexample: in a ten-row table a column missing exactly one
value has missing count `1 > 5% · 10 = 0.5` — so the claim says it is
dropped — yet `dropna(thresh=int(10*0.95)=9)` retains it: it survives
into the cleaned column list. -/
theorem C7_counterexample :
    tenRowTable.rows.length * 5 < missingCount tenRowTable "len" * 100 ∧
    "len" ∈ keptColumns tenRowTable ∧
    (clean_edges tenRowTable).map ETable.cols = some ["u", "v", "len", "residential_hwy"] := by
  refine ⟨by decide, by decide, by decide⟩

/-- C7 amended: `clean_edges` drops exactly the columns whose non-missing
count is below `int(0.95·n)` (equivalently, missing count strictly above
`n − int(0.95·n)`, which can be up to one row more than 5% of `n`), then
drops every remaining row containing a missing value, and the raw
`highway` column is absent after the one-hot expansion (provided
`highway` itself survived the column threshold and no original column
name collides with a generated indicator name). -/
theorem C7_clean_edges_threshold (t : ETable)
    (hhw : "highway" ∈ keptColumns t)
    (hcoll : ∀ c ∈ t.cols, c ∉ hwyDummyNames (keptRows t)) :
    (clean_edges t).isSome ∧
    "highway" ∉ cleanedCols t ∧
    (∀ c ∈ t.cols,
        (c ∈ cleanedCols t ↔
          (colThresh t.rows.length ≤ nonNullCount t c ∧ c ≠ "highway"))) ∧
    (∀ r ∈ cleanedRows t, ∀ c ∈ cleanedCols t, r c ≠ Cell.na) := by
  have hres : clean_edges t = some
      ⟨(keptColumns t ++ hwyDummyNames (keptRows t)).filter (fun c => c ≠ "highway"),
       (keptRows t).map (fun r => fun c =>
         if c ∈ hwyDummyNames (keptRows t) then
           Cell.num (((hwValues (r "highway")).count (c.dropRight 4) : ℚ))
         else r c)⟩ := by
    simp only [clean_edges, if_pos hhw]
    rw [if_pos (List.mem_append.mpr (Or.inl hhw))]
  have hcols : cleanedCols t =
      (keptColumns t ++ hwyDummyNames (keptRows t)).filter (fun c => c ≠ "highway") := by
    simp [cleanedCols, hres]
  have hrows : cleanedRows t =
      (keptRows t).map (fun r => fun c =>
        if c ∈ hwyDummyNames (keptRows t) then
          Cell.num (((hwValues (r "highway")).count (c.dropRight 4) : ℚ))
        else r c) := by
    simp [cleanedRows, hres]
  refine ⟨by rw [hres]; rfl, ?_, ?_, ?_⟩
  · rw [hcols]
    simp
  · intro c hc
    rw [hcols]
    constructor
    · intro hmemf
      rw [List.mem_filter] at hmemf
      obtain ⟨hmemb, hne⟩ := hmemf
      rcases List.mem_append.mp hmemb with hk | hd
      · rw [keptColumns, List.mem_filter] at hk
        exact ⟨by simpa using hk.2, by simpa using hne⟩
      · exact absurd hd (hcoll c hc)
    · intro ⟨hth, hne⟩
      rw [List.mem_filter]
      refine ⟨List.mem_append.mpr (Or.inl ?_), by simpa using hne⟩
      rw [keptColumns, List.mem_filter]
      exact ⟨hc, by simpa using hth⟩
  · intro r hr c hc
    rw [hrows] at hr
    obtain ⟨r0, hr0, rfl⟩ := List.mem_map.mp hr
    by_cases hdum : c ∈ hwyDummyNames (keptRows t)
    · simp [hdum]
    · rw [hcols, List.mem_filter] at hc
      obtain ⟨hmemb, hne⟩ := hc
      rcases List.mem_append.mp hmemb with hk | hd
      · simp only [if_neg hdum]
        rw [keptRows, List.mem_filter] at hr0
        have := (List.all_eq_true.mp hr0.2) c hk
        simpa using this
      · exact absurd hd hdum

/-- Witness for the amended C7 theorem at the ten-row table: `highway`
survives the threshold, the cleaned columns omit it, and the `len`
column's retention matches the threshold rule. -/
theorem C7_clean_edges_threshold_witness :
    (clean_edges tenRowTable).isSome ∧
    "highway" ∉ cleanedCols tenRowTable ∧
    ("len" ∈ cleanedCols tenRowTable ↔
      (colThresh tenRowTable.rows.length ≤ nonNullCount tenRowTable "len" ∧
       "len" ≠ "highway")) :=
  ⟨(C7_clean_edges_threshold tenRowTable (by decide) (by decide)).1,
   (C7_clean_edges_threshold tenRowTable (by decide) (by decide)).2.1,
   (C7_clean_edges_threshold tenRowTable (by decide) (by decide)).2.2.1 "len" (by decide)⟩

/-- C8: after the edge value projection step, every directed edge's
attribute equals the arithmetic mean of its endpoint nodes' values, a
defined pair of endpoint values yields their mean, and an undefined
endpoint value (one or both) propagates to an undefined edge value. -/
theorem C8_edge_average (g : AttrGraph) (a : String) (e : EdgeK) (he : e ∈ g.edges) :
    (add_average_to_edge g a).edgeAttr a e =
      avgOpt (g.nodeAttr a e.u) (g.nodeAttr a e.v) ∧
    (∀ x y, g.nodeAttr a e.u = some x → g.nodeAttr a e.v = some y →
        (add_average_to_edge g a).edgeAttr a e = some ((x + y) / 2)) ∧
    ((g.nodeAttr a e.u = none ∨ g.nodeAttr a e.v = none) →
        (add_average_to_edge g a).edgeAttr a e = none) := by
  have key : (add_average_to_edge g a).edgeAttr a e =
      avgOpt (g.nodeAttr a e.u) (g.nodeAttr a e.v) := by
    simp only [add_average_to_edge, if_pos rfl]
    exact foldl_pointwise_of_mem
      (fun e => avgOpt (g.nodeAttr a e.u) (g.nodeAttr a e.v)) g.edges _ e he
  refine ⟨key, ?_, ?_⟩
  · intro x y hx hy
    rw [key, hx, hy]
    rfl
  · intro h
    rw [key]
    rcases h with h | h
    · rw [h]
      rfl
    · rw [h]
      cases g.nodeAttr a e.u <;> rfl

/-- Witness for C8 at a concrete one-edge graph with defined endpoint
values `1` and `3`. -/
theorem C8_edge_average_witness :
    ((⟨1, 2, 0⟩ : EdgeK) ∈ demoAttrGraph.edges) ∧
    (add_average_to_edge demoAttrGraph "nearest_grocery_time").edgeAttr
        "nearest_grocery_time" ⟨1, 2, 0⟩ =
      avgOpt (demoAttrGraph.nodeAttr "nearest_grocery_time" 1)
        (demoAttrGraph.nodeAttr "nearest_grocery_time" 2) :=
  ⟨by decide,
   (C8_edge_average demoAttrGraph "nearest_grocery_time" ⟨1, 2, 0⟩ (by decide)).1⟩

/-- C9 counterexample: the edge value projection step applied to a stored
graph changes the graph held at the reference it received (the edge
attribute at key `(1,2,0)` goes from missing to `2`) and returns that
same reference rather than a new object. -/
theorem C9_counterexample :
    (add_average_to_edge_stateful demoStore 0 "nearest_grocery_time").2 = 0 ∧
    ((add_average_to_edge_stateful demoStore 0 "nearest_grocery_time").1 0).edgeAttr
        "nearest_grocery_time" ⟨1, 2, 0⟩ = some 2 ∧
    (demoStore 0).edgeAttr "nearest_grocery_time" ⟨1, 2, 0⟩ = none := by
  refine ⟨rfl, ?_, rfl⟩
  simp only [add_average_to_edge_stateful, add_average_to_edge, demoStore, demoAttrGraph, avgOpt]
  norm_num

/-- C9 amended: each attribute-adding call updates the graph object at
the reference it received in place, returns that same reference, and
leaves every other stored object unchanged. -/
theorem C9_in_place_update (store : Nat → AttrGraph) (r : Nat) (a : String) :
    (add_average_to_edge_stateful store r a).2 = r ∧
    (add_average_to_edge_stateful store r a).1 r = add_average_to_edge (store r) a ∧
    ∀ x, x ≠ r → (add_average_to_edge_stateful store r a).1 x = store x := by
  refine ⟨rfl, by simp [add_average_to_edge_stateful], ?_⟩
  intro x hx
  simp [add_average_to_edge_stateful, hx]

/-- Witness for the amended C9 theorem at the demo store: reference `1`
differs from the argument reference `0` and is untouched. -/
theorem C9_in_place_update_witness :
    (add_average_to_edge_stateful demoStore 0 "pagerank").2 = 0 ∧
    (add_average_to_edge_stateful demoStore 0 "pagerank").1 1 = demoStore 1 :=
  ⟨(C9_in_place_update demoStore 0 "pagerank").1,
   (C9_in_place_update demoStore 0 "pagerank").2.2 1 (by decide)⟩

/-- C10: the `buffer` flag is the exact boolean negation of the `aoa`
flag for every tagged node and edge — so each carries exactly one of the
two region labels — and an edge with one endpoint inside the area of
analysis and the other outside is labelled `buffer`. -/
theorem C10_region_flags (nodes : List RegionNode) (edges : List (Nat × Nat)) :
    (∀ t ∈ tag_region_nodes nodes, t.buffer = !t.aoa ∧ t.aoa ≠ t.buffer) ∧
    (∀ te ∈ tag_region_edges edges (aoa_node_ids (tag_region_nodes nodes)),
        te.buffer = !te.aoa ∧ te.aoa ≠ te.buffer) ∧
    (∀ te ∈ tag_region_edges edges (aoa_node_ids (tag_region_nodes nodes)),
        te.u ∈ aoa_node_ids (tag_region_nodes nodes) →
        te.v ∉ aoa_node_ids (tag_region_nodes nodes) → te.buffer = true) := by
  refine ⟨?_, ?_, ?_⟩
  · intro t ht
    simp only [tag_region_nodes, List.mem_map] at ht
    obtain ⟨n, -, rfl⟩ := ht
    exact ⟨rfl, by cases n.within_aoa <;> simp⟩
  · intro te hte
    simp only [tag_region_edges, List.mem_map] at hte
    obtain ⟨e, -, rfl⟩ := hte
    refine ⟨rfl, ?_⟩
    cases h : (decide (e.1 ∈ aoa_node_ids (tag_region_nodes nodes)) &&
        decide (e.2 ∈ aoa_node_ids (tag_region_nodes nodes))) <;> simp [h]
  · intro te hte hu hv
    simp only [tag_region_edges, List.mem_map] at hte
    obtain ⟨e, -, rfl⟩ := hte
    simp only at hu hv ⊢
    simp [hv]

/-- Witness for C10 at a concrete straddling edge: node 1 is inside the
area of analysis, node 2 outside, and the edge `(1, 2)` is tagged
`aoa = false`, `buffer = true`. -/
theorem C10_region_flags_witness :
    ((⟨1, 2, false, true⟩ : TaggedEdge) ∈
        tag_region_edges [(1, 2)] (aoa_node_ids (tag_region_nodes [⟨1, true⟩, ⟨2, false⟩]))) ∧
    (⟨1, 2, false, true⟩ : TaggedEdge).buffer = true :=
  ⟨by decide,
   (C10_region_flags [⟨1, true⟩, ⟨2, false⟩] [(1, 2)]).2.2 ⟨1, 2, false, true⟩
     (by decide) (by decide) (by decide)⟩

end FoodDesert
